import Mathlib

/-!
Verification of the serial control plane of the oh-flash tools: the
delimited stream reader ("expect" engine), the u-boot shell driver, and
the ymodem file-transfer sender.  Bytes are modelled as natural numbers
(always kept below 256 by the operations themselves), byte streams as
lists of bytes, and all stateful Go code as explicit state passing: the
read side of a stream is a list that functions consume from the front,
and the write side is an accumulator list that functions append to.
-/

set_option linter.unusedVariables false
set_option maxRecDepth 40000

deriving instance DecidableEq for Except

/-! ## CRC-16/XMODEM (package ymodem, crc16/crcUpdate) -/

/-- One shift-xor step of the CRC.  Mirrors `crcUpdate` from the source:
`out = input << 1` in uint16 arithmetic, incremented when the incoming bit
is set, xored with the polynomial 0x1021 when the pre-shift high bit was
set. -/
def crcUpdate (input : Nat) (increment : Bool) : Nat :=
  let out := (input <<< 1) % 65536
  let out := if increment then out + 1 else out
  if input >>> 15 ≠ 0 then out ^^^ 0x1021 else out

/-- CRC over a byte run.  Mirrors `crc16` from the source: each data byte
is fed MSB-first (masks 0x80 down to 0x01), then sixteen additional zero
bits are fed through the shift-xor step. -/
def crc16 (data : List Nat) : Nat :=
  let crc := data.foldl
    (fun crc b => (List.range 8).foldl (fun c k => crcUpdate c (b &&& (128 >>> k) != 0)) crc) 0
  (List.range 16).foldl (fun c _ => crcUpdate c false) crc

/-! ## Control bytes (package ymodem, const block) -/

def asciiSOH : Nat := 0x01
def asciiSTX : Nat := 0x02
def asciiEOT : Nat := 0x04
def asciiACK : Nat := 0x06
def asciiNAK : Nat := 0x15
def asciiCAN : Nat := 0x18
def ymodemPOLL : Nat := 0x43

/-! ## Block kinds (package ymodem, BlockKind) -/

/-- `BlockKind` is a bool in the source: `SmallBlock = false`,
`LargeBlock = true`. -/
abbrev BlockKind := Bool

def SmallBlock : BlockKind := false
def LargeBlock : BlockKind := true

/-- Mirrors `BlockKind.size`: 1024 bytes for large blocks, 128 otherwise. -/
def blockSizeOf (b : BlockKind) : Nat :=
  if b = LargeBlock then 1024 else 128

/-! ## Frame builder (package ymodem, sendBlock) -/

/-- The frame assembled by `sendBlock` before it is written to the stream:
start-of-block byte per block kind, the 8-bit block index and its bitwise
complement, the data filled up to the block size with the padding byte,
and the CRC of the filled payload, high byte first.  `blockIdx` is a
uint8 in the source; the reduction mod 256 models the conversion at the
call sites. -/
def sendBlockFrame (blockKind : BlockKind) (blockIdx : Nat) (data : List Nat) (padding : Nat) :
    List Nat :=
  let blockSize := blockSizeOf blockKind
  let idx := blockIdx % 256
  let body := data ++ List.replicate (blockSize - data.length) padding
  let crc := crc16 body
  (if blockKind = SmallBlock then [asciiSOH] else [asciiSTX]) ++
    [idx, 255 - idx] ++ body ++ [crc >>> 8, crc &&& 0x0FF]

/-! ## Claims C4 and C3 -/

/-- C4: the CRC-16 function (polynomial 0x1021, seed 0x0000, MSB-first,
with a trailing 16-zero-bit flush) returns 0x0000 on the empty byte
sequence and 0x31C3 on the ASCII bytes of "123456789". -/
theorem C4_crc16_check_values :
    crc16 [] = 0x0000 ∧
    crc16 [49, 50, 51, 52, 53, 54, 55, 56, 57] = 0x31C3 := by
  constructor
  · rfl
  · rfl

/-- C3: for every block kind, index 0..255 and payload of at most
blockSize bytes, the built frame is the start-of-block byte (0x01 small /
0x02 large), the index, 255 - index, the payload padded to exactly
blockSize bytes with the padding byte, and the CRC-16 of exactly those
blockSize payload-plus-padding bytes, high byte first; the frame is
blockSize + 5 bytes long and the header, index and complement bytes are
excluded from the CRC. -/
theorem C3_sendBlock_frame_layout (bk : BlockKind) (idx : Nat) (data : List Nat) (padding : Nat)
    (hidx : idx ≤ 255) (hlen : data.length ≤ blockSizeOf bk) :
    sendBlockFrame bk idx data padding =
      (if bk = SmallBlock then [0x01] else [0x02]) ++ [idx, 255 - idx] ++
        (data ++ List.replicate (blockSizeOf bk - data.length) padding) ++
        [crc16 (data ++ List.replicate (blockSizeOf bk - data.length) padding) >>> 8,
         crc16 (data ++ List.replicate (blockSizeOf bk - data.length) padding) &&& 0xFF] ∧
    (sendBlockFrame bk idx data padding).length = blockSizeOf bk + 5 ∧
    (data ++ List.replicate (blockSizeOf bk - data.length) padding).length = blockSizeOf bk := by
  have hmod : idx % 256 = idx := Nat.mod_eq_of_lt (by omega)
  have hbody : (data ++ List.replicate (blockSizeOf bk - data.length) padding).length
      = blockSizeOf bk := by
    rw [List.length_append, List.length_replicate]
    omega
  have hframe : sendBlockFrame bk idx data padding =
      (if bk = SmallBlock then [0x01] else [0x02]) ++ [idx, 255 - idx] ++
        (data ++ List.replicate (blockSizeOf bk - data.length) padding) ++
        [crc16 (data ++ List.replicate (blockSizeOf bk - data.length) padding) >>> 8,
         crc16 (data ++ List.replicate (blockSizeOf bk - data.length) padding) &&& 0xFF] := by
    simp only [sendBlockFrame, hmod, asciiSOH, asciiSTX]
  refine ⟨hframe, ?_, hbody⟩
  rw [hframe]
  have h1 : (if bk = SmallBlock then [(0x01 : Nat)] else [0x02]).length = 1 := by
    by_cases hb : bk = SmallBlock <;> simp [hb]
  simp only [List.length_append, h1, List.length_cons, List.length_nil, hbody]
  omega

/-! ## Delimited stream readers

`UBootShell.collectUntil` (ubootshell/uboot.go) and
`ExpectEngine.CollectUntil` / `ExpectEngine.DiscardUntil` (ioextra) scan
a byte stream for a literal delimiter with a running index `i`.  The two
collect variants differ on a mismatch with `i > 0`: the shell driver
resets `i` and moves on, while the expect engine resets `i` and un-reads
the byte (pushes it back onto the stream).  Each worker returns the
operation's result together with the unconsumed remainder of the
stream. -/

inductive RErr
  | streamEnded
  | promptUndiscovered
deriving DecidableEq

/-- Worker for the shell driver's `collectUntil`: read a byte, append it
to the buffer, advance `i` on a match, otherwise reset `i` to zero (the
byte is not reconsidered).  On success the collected bytes minus the
trailing delimiter are returned. -/
def cuU (expected buf : List Nat) (i : Nat) (s : List Nat) :
    Except RErr (List Nat) × List Nat :=
  if i = expected.length then
    (.ok (buf.take (buf.length - expected.length)), s)
  else
    match s with
    | [] => (.error .streamEnded, [])
    | b :: rest =>
      if i < expected.length ∧ expected.getD i 0 = b then
        cuU expected (buf ++ [b]) (i + 1) rest
      else
        cuU expected (buf ++ [b]) 0 rest

/-- Worker for the expect engine's `CollectUntil`: like `cuU`, but on a
mismatch with `i > 0` the byte is un-read (pushed back onto the stream)
after having been appended to the buffer. -/
def cuE (expected buf : List Nat) (i : Nat) (s : List Nat) :
    Except RErr (List Nat) × List Nat :=
  if i = expected.length then
    (.ok (buf.take (buf.length - expected.length)), s)
  else
    match s with
    | [] => (.error .streamEnded, [])
    | b :: rest =>
      if i < expected.length ∧ expected.getD i 0 = b then
        cuE expected (buf ++ [b]) (i + 1) rest
      else if 0 < i then
        cuE expected (buf ++ [b]) 0 (b :: rest)
      else
        cuE expected (buf ++ [b]) 0 rest
termination_by (s.length, i)
decreasing_by
  · apply Prod.Lex.left; simp
  · apply Prod.Lex.right; omega
  · apply Prod.Lex.left; simp

/-- Worker shared by the shell driver's `discardUntil` and the expect
engine's `DiscardUntil` (their loops are identical): advance on a match,
reset and un-read on a mismatch with `i > 0`, skip otherwise. -/
def duGo (expected : List Nat) (i : Nat) (s : List Nat) :
    Except RErr Unit × List Nat :=
  if i = expected.length then
    (.ok (), s)
  else
    match s with
    | [] => (.error .streamEnded, [])
    | b :: rest =>
      if i < expected.length ∧ expected.getD i 0 = b then
        duGo expected (i + 1) rest
      else if 0 < i then
        duGo expected 0 (b :: rest)
      else
        duGo expected 0 rest
termination_by (s.length, i)
decreasing_by
  · apply Prod.Lex.left; simp
  · apply Prod.Lex.right; omega
  · apply Prod.Lex.left; simp

/-- `collectUntil` of the u-boot shell driver. -/
def UBootShell.collectUntil (expected s : List Nat) :
    Except RErr (List Nat) × List Nat :=
  cuU expected [] 0 s

/-- `CollectUntil` of the ioextra expect engine. -/
def ExpectEngine.CollectUntil (expected s : List Nat) :
    Except RErr (List Nat) × List Nat :=
  cuE expected [] 0 s

/-- `discardUntil` of the u-boot shell driver. -/
def UBootShell.discardUntil (expected s : List Nat) :
    Except RErr Unit × List Nat :=
  duGo expected 0 s

/-- `DiscardUntil` of the ioextra expect engine. -/
def ExpectEngine.DiscardUntil (expected s : List Nat) :
    Except RErr Unit × List Nat :=
  duGo expected 0 s

/-! Helper lemmas for the collect-until workers: scanning a prefix none
of whose bytes can start the delimiter leaves the index at zero, and
scanning the delimiter itself completes the match. -/

theorem cuU_skip (d : Nat) (D2 P : List Nat) (hP : ∀ b ∈ P, b ≠ d) (buf rest : List Nat) :
    cuU (d :: D2) buf 0 (P ++ rest) = cuU (d :: D2) (buf ++ P) 0 rest := by
  induction P generalizing buf with
  | nil => simp
  | cons p P ih =>
    have hpd : d ≠ p := fun h => (hP p (by simp)) h.symm
    rw [List.cons_append, cuU]
    simp only [List.length_cons, List.getD_cons_zero]
    rw [if_neg (by omega), if_neg (by tauto)]
    rw [ih (fun b hb => hP b (by simp [hb])) (buf ++ [p])]
    simp

theorem cuE_skip (d : Nat) (D2 P : List Nat) (hP : ∀ b ∈ P, b ≠ d) (buf rest : List Nat) :
    cuE (d :: D2) buf 0 (P ++ rest) = cuE (d :: D2) (buf ++ P) 0 rest := by
  induction P generalizing buf with
  | nil => simp
  | cons p P ih =>
    have hpd : d ≠ p := fun h => (hP p (by simp)) h.symm
    rw [List.cons_append, cuE]
    simp only [List.length_cons, List.getD_cons_zero]
    rw [if_neg (by omega), if_neg (by tauto), if_neg (by omega)]
    rw [ih (fun b hb => hP b (by simp [hb])) (buf ++ [p])]
    simp

theorem cuU_match (D : List Nat) (suf : List Nat) :
    ∀ (i : Nat) (buf T : List Nat), D.drop i = suf → i + suf.length = D.length →
    cuU D buf i (suf ++ T) =
      (.ok ((buf ++ suf).take (buf.length + suf.length - D.length)), T) := by
  induction suf with
  | nil =>
    intro i buf T hdrop hlen
    have hi : i = D.length := by simpa using hlen
    rw [List.nil_append]
    rw [cuU.eq_def, if_pos hi]
    simp
  | cons b suf ih =>
    intro i buf T hdrop hlen
    have hiD : i < D.length := by
      simp only [List.length_cons] at hlen; omega
    have h0 : D[i]? = some b := by
      have := List.getElem?_drop D i 0
      rw [hdrop] at this
      simpa using this.symm
    have hb : D.getD i 0 = b := by
      rw [List.getD_eq_getElem?_getD, h0]
      rfl
    have hdrop' : D.drop (i + 1) = suf := by
      have ht := congrArg List.tail hdrop
      simpa [List.tail_drop] using ht
    rw [List.cons_append, cuU, if_neg (by omega), if_pos ⟨hiD, hb⟩]
    rw [ih (i + 1) (buf ++ [b]) T hdrop' (by simp only [List.length_cons] at hlen ⊢; omega)]
    have harith : (buf ++ [b]).length + suf.length - D.length
        = buf.length + (b :: suf).length - D.length := by
      simp; omega
    rw [harith]
    simp

theorem cuE_match (D : List Nat) (suf : List Nat) :
    ∀ (i : Nat) (buf T : List Nat), D.drop i = suf → i + suf.length = D.length →
    cuE D buf i (suf ++ T) =
      (.ok ((buf ++ suf).take (buf.length + suf.length - D.length)), T) := by
  induction suf with
  | nil =>
    intro i buf T hdrop hlen
    have hi : i = D.length := by simpa using hlen
    rw [List.nil_append]
    rw [cuE.eq_def, if_pos hi]
    simp
  | cons b suf ih =>
    intro i buf T hdrop hlen
    have hiD : i < D.length := by
      simp only [List.length_cons] at hlen; omega
    have h0 : D[i]? = some b := by
      have := List.getElem?_drop D i 0
      rw [hdrop] at this
      simpa using this.symm
    have hb : D.getD i 0 = b := by
      rw [List.getD_eq_getElem?_getD, h0]
      rfl
    have hdrop' : D.drop (i + 1) = suf := by
      have ht := congrArg List.tail hdrop
      simpa [List.tail_drop] using ht
    rw [List.cons_append, cuE, if_neg (by omega), if_pos ⟨hiD, hb⟩]
    rw [ih (i + 1) (buf ++ [b]) T hdrop' (by simp only [List.length_cons] at hlen ⊢; omega)]
    have harith : (buf ++ [b]).length + suf.length - D.length
        = buf.length + (b :: suf).length - D.length := by
      simp; omega
    rw [harith]
    simp

theorem cuU_decompose (d : Nat) (D2 P T : List Nat) (hP : ∀ b ∈ P, b ≠ d) :
    cuU (d :: D2) [] 0 (P ++ (d :: D2) ++ T) = (.ok P, T) := by
  rw [List.append_assoc, cuU_skip d D2 P hP [] ((d :: D2) ++ T), List.nil_append]
  rw [cuU_match (d :: D2) (d :: D2) 0 P T rfl (by simp)]
  have : P.length + (d :: D2).length - (d :: D2).length = P.length := by omega
  rw [this, List.take_left]

theorem cuE_decompose (d : Nat) (D2 P T : List Nat) (hP : ∀ b ∈ P, b ≠ d) :
    cuE (d :: D2) [] 0 (P ++ (d :: D2) ++ T) = (.ok P, T) := by
  rw [List.append_assoc, cuE_skip d D2 P hP [] ((d :: D2) ++ T), List.nil_append]
  rw [cuE_match (d :: D2) (d :: D2) 0 P T rfl (by simp)]
  have : P.length + (d :: D2).length - (d :: D2).length = P.length := by omega
  rw [this, List.take_left]

/-! ## Claims C2 and C9 -/

/-- C2 counterexample: the claim as stated fails.  Taking D = "ab"
(bytes 97 98), P = "a" and T = "" the stream "aab" decomposes as
P || D || T with D first occurring at the end of P || D, so the claim
requires collect-until to return P = [97] and leave [] unread.  The shell
driver's variant discards the mismatched second 97, misses the
occurrence and fails with stream-ended; the expect engine's variant
un-reads the byte after having already buffered it and returns [97, 97]
instead of [97]. -/
theorem C2_counterexample :
    UBootShell.collectUntil [97, 98] ([97] ++ [97, 98] ++ []) = (.error .streamEnded, []) ∧
    ExpectEngine.CollectUntil [97, 98] ([97] ++ [97, 98] ++ []) = (.ok [97, 97], []) ∧
    ([97, 97] : List Nat) ≠ [97] := by
  refine ⟨by decide, ?_, by decide⟩
  simp [ExpectEngine.CollectUntil, cuE]

/-- C2 (amended): for every delimiter D of length 1 to 16 and every
stream S = P || D || T in which no byte of P equals the first byte of D
(so no partial delimiter match is ever abandoned), both collect-until
implementations return exactly P, consume exactly P || D, and leave T
unread. -/
theorem C2_collect_until_restricted (D P T : List Nat) (hne : D ≠ [])
    (hlen : 1 ≤ D.length ∧ D.length ≤ 16) (hP : ∀ b ∈ P, b ≠ D.headI) :
    ExpectEngine.CollectUntil D (P ++ D ++ T) = (.ok P, T) ∧
    UBootShell.collectUntil D (P ++ D ++ T) = (.ok P, T) := by
  obtain ⟨d, D2, rfl⟩ : ∃ d D2, D = d :: D2 := by
    cases D with
    | nil => exact absurd rfl hne
    | cons d D2 => exact ⟨d, D2, rfl⟩
  have hP' : ∀ b ∈ P, b ≠ d := by simpa using hP
  exact ⟨cuE_decompose d D2 P T hP', cuU_decompose d D2 P T hP'⟩

/-- Witness for C2 at a concrete input: D = [97, 98], P = [99],
T = [100]. -/
theorem C2_witness :
    (([97, 98] : List Nat) ≠ [] ∧
      (1 ≤ ([97, 98] : List Nat).length ∧ ([97, 98] : List Nat).length ≤ 16) ∧
      ∀ b ∈ [99], b ≠ ([97, 98] : List Nat).headI) ∧
    ExpectEngine.CollectUntil [97, 98] ([99] ++ [97, 98] ++ [100]) = (.ok [99], [100]) ∧
    UBootShell.collectUntil [97, 98] ([99] ++ [97, 98] ++ [100]) = (.ok [99], [100]) :=
  ⟨⟨by decide, by decide, by decide⟩,
    C2_collect_until_restricted [97, 98] [99] [100] (by decide) (by decide) (by decide)⟩

/-- C9 counterexample: the two collect-until implementations are not the
same function.  On delimiter "ab" and stream "aab" the shell driver's
variant fails with stream-ended while the expect engine's variant
returns [97, 97]. -/
theorem C9_counterexample :
    UBootShell.collectUntil [97, 98] [97, 97, 98]
      ≠ ExpectEngine.CollectUntil [97, 98] [97, 97, 98] := by
  have h1 : UBootShell.collectUntil [97, 98] [97, 97, 98] = (.error .streamEnded, []) := by
    decide
  have h2 : ExpectEngine.CollectUntil [97, 98] [97, 97, 98] = (.ok [97, 97], []) := by
    simp [ExpectEngine.CollectUntil, cuE]
  rw [h1, h2]
  decide

/-- C9 (amended): the two collect-until implementations agree on every
stream S = P || D || T in which no byte of P equals the first byte of
the nonempty delimiter D (no partial match is abandoned); on such
streams both return P and leave T.  In general they differ: on an
abandoned partial match the expect engine un-reads the mismatched byte
while the shell driver discards it. -/
theorem C9_collect_until_agree_restricted (D P T : List Nat) (hne : D ≠ [])
    (hP : ∀ b ∈ P, b ≠ D.headI) :
    UBootShell.collectUntil D (P ++ D ++ T) = ExpectEngine.CollectUntil D (P ++ D ++ T) := by
  obtain ⟨d, D2, rfl⟩ : ∃ d D2, D = d :: D2 := by
    cases D with
    | nil => exact absurd rfl hne
    | cons d D2 => exact ⟨d, D2, rfl⟩
  have hP' : ∀ b ∈ P, b ≠ d := by simpa using hP
  rw [UBootShell.collectUntil, ExpectEngine.CollectUntil,
    cuU_decompose d D2 P T hP', cuE_decompose d D2 P T hP']

/-- Witness for C9 at a concrete input: D = [97, 98], P = [98], T = []. -/
theorem C9_witness :
    (([97, 98] : List Nat) ≠ [] ∧ ∀ b ∈ [98], b ≠ ([97, 98] : List Nat).headI) ∧
    UBootShell.collectUntil [97, 98] ([98] ++ [97, 98] ++ [])
      = ExpectEngine.CollectUntil [97, 98] ([98] ++ [97, 98] ++ []) :=
  ⟨⟨by decide, by decide⟩,
    C9_collect_until_agree_restricted [97, 98] [98] [] (by decide) (by decide)⟩

/-- Witness for C3 at a concrete input: small block, index 1, a 128-byte
zero payload, zero padding. -/
theorem C3_witness :
    (sendBlockFrame SmallBlock 1 (List.replicate 128 0) 0).length = blockSizeOf SmallBlock + 5 :=
  (C3_sendBlock_frame_layout SmallBlock 1 (List.replicate 128 0) 0 (by decide)
    (by decide)).2.1

/-! ## Shell driver (package ubootshell, UBootShell)

The driver owns one bidirectional stream; its read side is the `input`
list and its write side the `out` accumulator.  `prompt` is the prompt
discovered at runtime (initially empty).  The Go methods panic when a
command is issued before prompt discovery; the `panicked` result models
that fatal programmer error, reached before anything is written. -/

structure UBootShell where
  prompt : List Nat
deriving DecidableEq

inductive CmdResult
  | panicked
  | failed (e : RErr)
  | ok (output : List Nat)
deriving DecidableEq

/-- `WaitForPrompt`: discard output until the prompt re-appears. -/
def UBootShell.WaitForPrompt (sh : UBootShell) (input : List Nat) :
    Except RErr Unit × List Nat :=
  UBootShell.discardUntil sh.prompt input

/-- `regularCmd`: panic without a prompt; otherwise write the command and
a newline, discard until the echo (command plus CR LF), then collect
until the prompt. -/
def UBootShell.regularCmd (sh : UBootShell) (cmd input out : List Nat) :
    CmdResult × List Nat × List Nat :=
  if sh.prompt.length = 0 then (.panicked, input, out)
  else
    let out1 := out ++ cmd ++ [10]
    match UBootShell.discardUntil (cmd ++ [13, 10]) input with
    | (.error e, rest) => (.failed e, rest, out1)
    | (.ok _, rest) =>
      match UBootShell.collectUntil sh.prompt rest with
      | (.error e, rest2) => (.failed e, rest2, out1)
      | (.ok output, rest2) => (.ok output, rest2, out1)

/-- `specialCmd`: like `regularCmd` but after the echo it discards until
the given sentinel instead of collecting until the prompt. -/
def UBootShell.specialCmd (sh : UBootShell) (cmd after input out : List Nat) :
    CmdResult × List Nat × List Nat :=
  if sh.prompt.length = 0 then (.panicked, input, out)
  else
    let out1 := out ++ cmd ++ [10]
    match UBootShell.discardUntil (cmd ++ [13, 10]) input with
    | (.error e, rest) => (.failed e, rest, out1)
    | (.ok _, rest) =>
      match UBootShell.discardUntil after rest with
      | (.error e, rest2) => (.failed e, rest2, out1)
      | (.ok _, rest2) => (.ok [], rest2, out1)

/-- Model of `bufio.Reader.ReadBytes` with delimiter `\n`: the returned
line includes the newline; end of stream before a newline is an error
(the Go caller returns the error). -/
def readLineAux : List Nat → Option (List Nat × List Nat)
  | [] => none
  | b :: rest =>
    if b = 10 then some ([10], rest)
    else
      match readLineAux rest with
      | none => none
      | some (l, r) => some (b :: l, r)

/-- `bytes.TrimRight(line, "\r\n")`. -/
def trimCRLF (l : List Nat) : List Nat :=
  (l.reverse.dropWhile (fun b => b == 13 || b == 10)).reverse

/-- The `ProbePrompt` attempt loop: up to `n` times, write a newline,
read one newline-terminated line and right-trim it; stop at the first
non-empty trimmed line.  The carried list is the last trimmed line, as
in the Go loop variable. -/
def probeAttempts : Nat → List Nat → List Nat → List Nat →
    Except RErr (List Nat) × List Nat × List Nat
  | 0, prompt, input, out => (.ok prompt, input, out)
  | n + 1, _, input, out =>
    let out1 := out ++ [10]
    match readLineAux input with
    | none => (.error .streamEnded, [], out1)
    | some (line, rest) =>
      let p := trimCRLF line
      if p.length ≠ 0 then (.ok p, rest, out1)
      else probeAttempts n p rest out1

/-- `ProbePrompt`: three attempts; if the final trimmed line is empty the
probe fails, otherwise the line becomes the driver's prompt. -/
def UBootShell.ProbePrompt (sh : UBootShell) (input out : List Nat) :
    Except RErr UBootShell × List Nat × List Nat :=
  match probeAttempts 3 [] input out with
  | (.error e, rest, out1) => (.error e, rest, out1)
  | (.ok p, rest, out1) =>
    if p.length = 0 then (.error .promptUndiscovered, rest, out1)
    else (.ok { sh with prompt := p }, rest, out1)

/-! ## Claims C10 and C7 -/

/-- C10: calling wait-for-prompt on a driver whose prompt is still empty
returns success immediately without reading or consuming any bytes,
because discard-until of a zero-length delimiter terminates before its
first read. -/
theorem C10_wait_for_prompt_empty_prompt (sh : UBootShell) (input : List Nat)
    (h : sh.prompt = []) :
    sh.WaitForPrompt input = (.ok (), input) := by
  rw [UBootShell.WaitForPrompt, UBootShell.discardUntil, h]
  rw [duGo.eq_def]
  simp

/-- Witness for C10 at a concrete input. -/
theorem C10_witness :
    ({ prompt := [] } : UBootShell).WaitForPrompt [1, 2, 3] = (.ok (), [1, 2, 3]) :=
  C10_wait_for_prompt_empty_prompt { prompt := [] } [1, 2, 3] rfl

theorem regularCmd_not_panicked (sh : UBootShell) (h : sh.prompt ≠ [])
    (cmd input out : List Nat) :
    (sh.regularCmd cmd input out).1 ≠ .panicked := by
  rw [UBootShell.regularCmd, if_neg (by simpa [List.length_eq_zero] using h)]
  split
  · simp
  · split <;> simp

theorem specialCmd_not_panicked (sh : UBootShell) (h : sh.prompt ≠ [])
    (cmd after input out : List Nat) :
    (sh.specialCmd cmd after input out).1 ≠ .panicked := by
  rw [UBootShell.specialCmd, if_neg (by simpa [List.length_eq_zero] using h)]
  split
  · simp
  · split <;> simp

theorem probePrompt_ok_prompt (sh sh' : UBootShell) (input out rest out2 : List Nat)
    (h : sh.ProbePrompt input out = (.ok sh', rest, out2)) : sh'.prompt ≠ [] := by
  rw [UBootShell.ProbePrompt] at h
  rcases hp : probeAttempts 3 [] input out with ⟨r, rest1, out1⟩
  rw [hp] at h
  cases r with
  | error e => simp at h
  | ok p =>
    dsimp only at h
    by_cases hz : p.length = 0
    · rw [if_pos hz] at h
      simp at h
    · rw [if_neg hz] at h
      have hsh : sh' = { sh with prompt := p } := by
        have h1 := congrArg (fun t => t.1) h
        simp at h1
        exact h1.symm
      rw [hsh]
      simpa [List.length_eq_zero] using hz

/-- C7: a shell driver whose prompt has not been discovered (prompt
empty) rejects command and special-command with the fatal
programmer-error before writing anything to the stream; after a
successful probe-prompt the recorded prompt is non-empty and commands
are accepted (they never hit the programmer-error). -/
theorem C7_prompt_gate (sh : UBootShell) (cmd after input out : List Nat) :
    (sh.prompt = [] →
      sh.regularCmd cmd input out = (.panicked, input, out) ∧
      sh.specialCmd cmd after input out = (.panicked, input, out)) ∧
    (∀ sh' rest out2, sh.ProbePrompt input out = (.ok sh', rest, out2) →
      sh'.prompt ≠ [] ∧
      ∀ c a i o, (sh'.regularCmd c i o).1 ≠ .panicked ∧
        (sh'.specialCmd c a i o).1 ≠ .panicked) := by
  constructor
  · intro h
    constructor
    · rw [UBootShell.regularCmd, if_pos (by simp [h])]
    · rw [UBootShell.specialCmd, if_pos (by simp [h])]
  · intro sh' rest out2 h
    have hp := probePrompt_ok_prompt sh sh' input out rest out2 h
    exact ⟨hp, fun c a i o =>
      ⟨regularCmd_not_panicked sh' hp c i o, specialCmd_not_panicked sh' hp c a i o⟩⟩

/-- Witness for C7: an undiscovered driver panics without writing; after
probing a stream that yields the line "h\n" the prompt is [104] and
commands are accepted. -/
theorem C7_witness :
    (({ prompt := [] } : UBootShell).regularCmd [99] [1] [2] = (.panicked, [1], [2]) ∧
     ({ prompt := [] } : UBootShell).specialCmd [99] [100] [1] [2] = (.panicked, [1], [2])) ∧
    (({ prompt := [104] } : UBootShell).prompt ≠ [] ∧
     ∀ c a i o, (({ prompt := [104] } : UBootShell).regularCmd c i o).1 ≠ .panicked ∧
       (({ prompt := [104] } : UBootShell).specialCmd c a i o).1 ≠ .panicked) :=
  ⟨(C7_prompt_gate { prompt := [] } [99] [100] [1] [2]).1 rfl,
   (C7_prompt_gate { prompt := [] } [99] [100] [104, 10] []).2
     { prompt := [104] } [] [10] (by decide)⟩

/-! ## Transfer session (package ymodem, Transfer)

The peer is the read side of the stream: `input` is the script of
control bytes it will send.  `YSt` carries the write side (`out`) and
the trace of observer callbacks (`ev`); the observer is modelled as a
boolean "attached" flag, with events recorded only when it is set, as in
the Go nil checks.  Every function returns its result, the unconsumed
input and the updated `YSt`. -/

inductive YErr
  | streamEnded
  | desync (got : Nat)
  | tooManyRetries
  | rejected
deriving DecidableEq

inductive Event
  | start (name : List Nat) (size : Nat)
  | progress (bytesSent bytesTotal : Nat)
  | finish
deriving DecidableEq

structure YFile where
  name : List Nat
  data : List Nat
deriving DecidableEq

structure Transfer where
  file : YFile
  blockKind : BlockKind
  retryCount : Int
  observer : Bool
  fileBytesSent : Nat
deriving DecidableEq

structure YSt where
  out : List Nat
  ev : List Event
deriving DecidableEq

def emit (st : YSt) (bs : List Nat) : YSt :=
  { st with out := st.out ++ bs }

def note (obs : Bool) (st : YSt) (e : Event) : YSt :=
  if obs then { st with ev := st.ev ++ [e] } else st

/-- `filepath.Base` for ordinary slash-separated paths: the part after
the last 0x2F. -/
def baseNameOf (p : List Nat) : List Nat :=
  (p.reverse.takeWhile (fun b => b != 47)).reverse

/-- `fmt.Sprintf` with the decimal verb: digits of `n` in ASCII, no
leading zeros, "0" for zero.  The fuel argument (always sufficient at
`n + 1`) keeps the recursion structural. -/
def decimalAsciiAux : Nat → Nat → List Nat
  | _, 0 => []
  | n, fuel + 1 =>
    if n < 10 then [48 + n]
    else decimalAsciiAux (n / 10) fuel ++ [48 + n % 10]

def decimalAscii (n : Nat) : List Nat :=
  decimalAsciiAux n (n + 1)

/-- `infoBlockForFile`: the basename of the file, a NUL byte, and the
size in decimal ASCII. -/
def infoBlockForFile (f : YFile) : List Nat :=
  baseNameOf f.name ++ [0] ++ decimalAscii f.data.length

/-- The retry loop of `sendFileInfo`: emit the info block (block 0,
zero padding), read one control byte; ACK succeeds, NAK decrements the
retry budget and fails with too-many-retries once it drops below zero,
CAN reads up to 3 further bytes and fails with transfer-rejected, any
other byte is a protocol desync. -/
def infoRetryLoop (tr : Transfer) (infoBlock : List Nat) (input : List Nat) (st : YSt) :
    Except YErr Transfer × List Nat × YSt :=
  let st1 := emit st (sendBlockFrame tr.blockKind 0 infoBlock 0)
  match input with
  | [] => (.error .streamEnded, [], st1)
  | c :: rest =>
    if c = asciiACK then (.ok tr, rest, st1)
    else if c = asciiNAK then
      let tr1 : Transfer := { tr with retryCount := tr.retryCount - 1 }
      if tr1.retryCount < 0 then (.error .tooManyRetries, rest, st1)
      else infoRetryLoop tr1 infoBlock rest st1
    else if c = asciiCAN then
      match rest with
      | [] => (.error .streamEnded, [], st1)
      | _ :: _ => (.error .rejected, rest.drop 3, st1)
    else (.error (.desync c), rest, st1)

/-- `sendFileInfo`: wait for the initial POLL, then run the retry
loop on the info block. -/
def sendFileInfo (tr : Transfer) (input : List Nat) (st : YSt) :
    Except YErr Transfer × List Nat × YSt :=
  match input with
  | [] => (.error .streamEnded, [], st)
  | c :: rest =>
    if c = ymodemPOLL then infoRetryLoop tr (infoBlockForFile tr.file) rest st
    else (.error (.desync c), rest, st)

/-- The sequence of up-to-blockSize file reads performed by the data
loop: `ceil (length / bs)` chunks taken in order. -/
def chunkify (bs : Nat) (l : List Nat) : List (List Nat) :=
  (List.range ((l.length + bs - 1) / bs)).map (fun k => (l.drop (k * bs)).take bs)

/-- The block loop of `sendFileData`.  For each chunk: emit the block
(1-based index, 0x1A padding) and read one control byte.  On a non-ACK
the retry budget is decremented and too-many-retries is raised when it
reaches exactly zero — but otherwise the loop moves on to the next
chunk without resending, mirroring the unconditional break in the
source.  Bytes-sent is updated and progress reported after each chunk,
acknowledged or not. -/
def dataLoop (tr : Transfer) (blockIdx : Nat) (chunks : List (List Nat))
    (input : List Nat) (st : YSt) : Except YErr Transfer × List Nat × YSt :=
  match chunks with
  | [] => (.ok tr, input, st)
  | chunk :: rest =>
    let st1 := emit st (sendBlockFrame tr.blockKind (blockIdx + 1) chunk 0x1A)
    match input with
    | [] => (.error .streamEnded, [], st1)
    | c :: inRest =>
      if c = asciiACK then
        let tr1 : Transfer := { tr with fileBytesSent := tr.fileBytesSent + chunk.length }
        let st2 := note tr1.observer st1 (.progress tr1.fileBytesSent tr1.file.data.length)
        dataLoop tr1 (blockIdx + 1) rest inRest st2
      else
        let tr1 : Transfer := { tr with retryCount := tr.retryCount - 1 }
        if tr1.retryCount = 0 then (.error .tooManyRetries, inRest, st1)
        else
          let tr2 : Transfer := { tr1 with fileBytesSent := tr1.fileBytesSent + chunk.length }
          let st2 := note tr2.observer st1 (.progress tr2.fileBytesSent tr2.file.data.length)
          dataLoop tr2 (blockIdx + 1) rest inRest st2

/-- `sendFileData`: wait for POLL, notify start, send all chunks, notify
finish. -/
def sendFileData (tr : Transfer) (input : List Nat) (st : YSt) :
    Except YErr Transfer × List Nat × YSt :=
  match input with
  | [] => (.error .streamEnded, [], st)
  | c :: rest =>
    if c = ymodemPOLL then
      let st1 := note tr.observer st (.start tr.file.name tr.file.data.length)
      match dataLoop tr 0 (chunkify (blockSizeOf tr.blockKind) tr.file.data) rest st1 with
      | (.ok tr1, input1, st2) => (.ok tr1, input1, note tr1.observer st2 .finish)
      | r => r
    else (.error (.desync c), rest, st)

/-- The termination dance at the end of `SendTo`: EOT, two ACKs, a POLL,
the empty terminator block (block 0, zero padding), and a final ACK. -/
def terminationDance (tr : Transfer) (input : List Nat) (st : YSt) :
    Except YErr Transfer × List Nat × YSt :=
  let st1 := emit st [asciiEOT]
  match input with
  | [] => (.error .streamEnded, [], st1)
  | c1 :: i1 =>
    if c1 = asciiACK then
      match i1 with
      | [] => (.error .streamEnded, [], st1)
      | c2 :: i2 =>
        if c2 = asciiACK then
          match i2 with
          | [] => (.error .streamEnded, [], st1)
          | c3 :: i3 =>
            if c3 = ymodemPOLL then
              let st2 := emit st1 (sendBlockFrame tr.blockKind 0 [] 0)
              match i3 with
              | [] => (.error .streamEnded, [], st2)
              | c4 :: i4 =>
                if c4 = asciiACK then (.ok tr, i4, st2)
                else (.error (.desync c4), i4, st2)
            else (.error (.desync c3), i3, st1)
        else (.error (.desync c2), i2, st1)
    else (.error (.desync c1), i1, st1)

/-- The body of `SendTo` without the deferred abort: info block, data
blocks, termination dance. -/
def sendToBody (tr : Transfer) (input : List Nat) (st : YSt) :
    Except YErr Transfer × List Nat × YSt :=
  match sendFileInfo tr input st with
  | (.error e, i1, s1) => (.error e, i1, s1)
  | (.ok tr1, i1, s1) =>
    match sendFileData tr1 i1 s1 with
    | (.error e, i2, s2) => (.error e, i2, s2)
    | (.ok tr2, i2, s2) => terminationDance tr2 i2 s2

/-- `SendTo` with its deferred abort: on any failure two CAN bytes are
written to the stream before the error is surfaced. -/
def SendTo (tr : Transfer) (input : List Nat) (st : YSt) :
    Except YErr Transfer × List Nat × YSt :=
  match sendToBody tr input st with
  | (.ok tr1, i, s) => (.ok tr1, i, s)
  | (.error e, i, s) => (.error e, i, emit s [asciiCAN, asciiCAN])

/-! ## Claim C1 -/

/-- The transfer used to exhibit the missing resend: a 129-byte file
(two small blocks) and retry budget 3. -/
def trC1 : Transfer :=
  { file := { name := [102], data := List.replicate 128 0 ++ [1] },
    blockKind := SmallBlock, retryCount := 3, observer := false, fileBytesSent := 0 }

/-- C1, evaluated at the failing input: in the SEND-DATA state with peer
bytes POLL, NAK, ACK, the sender treats the NAK for block 1 as merely
consuming one retry (budget 3 becomes 2) and then succeeds after
sending ONLY two frames of 133 bytes each: the first with block index 1
and the second with block index 2.  Block 1 is never resent after its
NAK — the claim (and the spec's intended behavior) requires the same
block to be resent before reading the next control byte, but the
source's inner retry loop exits unconditionally. -/
theorem C1_no_resend_on_nak :
    (sendFileData trC1 [ymodemPOLL, asciiNAK, asciiACK] { out := [], ev := [] }).1 =
        .ok { trC1 with retryCount := 2, fileBytesSent := 129 } ∧
    (sendFileData trC1 [ymodemPOLL, asciiNAK, asciiACK] { out := [], ev := [] }).2.2.out.length
        = 266 ∧
    (sendFileData trC1 [ymodemPOLL, asciiNAK, asciiACK] { out := [], ev := [] }).2.2.out.take 3
        = [asciiSOH, 1, 254] ∧
    ((sendFileData trC1 [ymodemPOLL, asciiNAK, asciiACK]
        { out := [], ev := [] }).2.2.out.drop 133).take 3
        = [asciiSOH, 2, 253] :=
  ⟨by decide, by decide, by decide, by decide⟩

/-! ## Claim C5 -/

/-- The info-block session used for C5: a 1-byte file, small blocks, no
observer, parameterised by the retry budget. -/
def tr5 (rc : Int) : Transfer :=
  { file := { name := [102], data := [55] }, blockKind := SmallBlock,
    retryCount := rc, observer := false, fileBytesSent := 0 }

/-- C5 counterexample: with retry budget 2 and a peer that POLLs, NAKs
the info block twice, then ACKs, sending the info block SUCCEEDS (the
budget ends at 0, and the code only fails once the decremented budget
drops below zero) — the claim says this run fails with
too-many-retries. -/
theorem C5_counterexample :
    (sendFileInfo (tr5 2) [ymodemPOLL, asciiNAK, asciiNAK, asciiACK]
      { out := [], ev := [] }).1 = .ok (tr5 0) := by decide

/-- C5 (amended): when the peer NAKs the info block twice and then ACKs,
a session with retry budget 3 succeeds, a session with retry budget 2
also succeeds, and a session with retry budget 1 fails with
too-many-retries (its second NAK drives the budget below zero before
the ACK is read). -/
theorem C5_amended_retry_budget :
    (sendFileInfo (tr5 3) [ymodemPOLL, asciiNAK, asciiNAK, asciiACK]
        { out := [], ev := [] }).1 = .ok (tr5 1) ∧
    (sendFileInfo (tr5 2) [ymodemPOLL, asciiNAK, asciiNAK, asciiACK]
        { out := [], ev := [] }).1 = .ok (tr5 0) ∧
    (sendFileInfo (tr5 1) [ymodemPOLL, asciiNAK, asciiNAK, asciiACK]
        { out := [], ev := [] }).1 = .error .tooManyRetries := by
  refine ⟨by decide, by decide, by decide⟩

/-! ## Claim C6 -/

/-- C6: whenever a transfer session returns an error, the deferred abort
in `SendTo` has appended the two CAN bytes 0x18 0x18 to the stream, so
the session's outbound bytes end with 0x18 0x18. -/
theorem C6_can_can_on_failure (tr : Transfer) (input : List Nat) (st : YSt) (e : YErr)
    (h : (SendTo tr input st).1 = .error e) :
    ∃ pre, (SendTo tr input st).2.2.out = pre ++ [asciiCAN, asciiCAN] := by
  rw [SendTo] at h ⊢
  rcases hb : sendToBody tr input st with ⟨r, i, s⟩
  cases r with
  | ok t =>
    rw [hb] at h
    simp at h
  | error e2 => exact ⟨s.out, by simp [emit]⟩

/-- The transfer used for the C6 witness. -/
def tr6 : Transfer :=
  { file := { name := [103], data := [] }, blockKind := SmallBlock,
    retryCount := 0, observer := false, fileBytesSent := 0 }

/-- Witness for C6 at a concrete input: with an empty peer script the
session fails with stream-ended and the outbound bytes end with
CAN CAN. -/
theorem C6_witness :
    (SendTo tr6 [] { out := [], ev := [] }).1 = .error .streamEnded ∧
    ∃ pre, (SendTo tr6 [] { out := [], ev := [] }).2.2.out = pre ++ [asciiCAN, asciiCAN] :=
  ⟨by decide, C6_can_can_on_failure tr6 [] { out := [], ev := [] } .streamEnded (by decide)⟩

/-! ## Claim C8 -/

/-- A failing transfer with an attached observer: the peer accepts the
info block and the single data block, then goes silent during the
termination dance. -/
def tr8 : Transfer :=
  { file := { name := [102], data := [55] }, blockKind := SmallBlock,
    retryCount := 10, observer := true, fileBytesSent := 0 }

/-- C8 counterexample: a transfer that fails (stream-ended during the
termination dance) has nevertheless invoked start, progress and finish —
the claim says no observer method is invoked on a failing transfer. -/
theorem C8_counterexample :
    (SendTo tr8 [ymodemPOLL, asciiACK, ymodemPOLL, asciiACK] { out := [], ev := [] }).1
        = .error .streamEnded ∧
    (SendTo tr8 [ymodemPOLL, asciiACK, ymodemPOLL, asciiACK] { out := [], ev := [] }).2.2.ev
        = [.start [102] 1, .progress 1 1, .finish] := by
  refine ⟨by decide, by decide⟩

theorem emit_ev (st : YSt) (bs : List Nat) : (emit st bs).ev = st.ev := rfl

theorem note_true_ev (st : YSt) (e : Event) : note true st e = { st with ev := st.ev ++ [e] } := rfl

theorem infoRetryLoop_ev (input : List Nat) :
    ∀ (tr : Transfer) (infoBlock : List Nat) (st : YSt),
      (infoRetryLoop tr infoBlock input st).2.2.ev = st.ev ∧
      (∀ tr1 i1 s1, infoRetryLoop tr infoBlock input st = (.ok tr1, i1, s1) →
        tr1.file = tr.file ∧ tr1.blockKind = tr.blockKind ∧ tr1.observer = tr.observer) := by
  induction input with
  | nil =>
    intro tr infoBlock st
    rw [infoRetryLoop.eq_def]
    exact ⟨rfl, by intro tr1 i1 s1 h; simp at h⟩
  | cons c rest ih =>
    intro tr infoBlock st
    rw [infoRetryLoop.eq_def]
    dsimp only
    by_cases hA : c = asciiACK
    · rw [if_pos hA]
      exact ⟨rfl, by intro tr1 i1 s1 h; simp at h; obtain ⟨h1, -, -⟩ := h; rw [← h1]; exact ⟨rfl, rfl, rfl⟩⟩
    · rw [if_neg hA]
      by_cases hN : c = asciiNAK
      · rw [if_pos hN]
        by_cases hz : ({ tr with retryCount := tr.retryCount - 1 } : Transfer).retryCount < 0
        · rw [if_pos hz]
          exact ⟨rfl, by intro tr1 i1 s1 h; simp at h⟩
        · rw [if_neg hz]
          obtain ⟨hev, hfields⟩ := ih { tr with retryCount := tr.retryCount - 1 } infoBlock
            (emit st (sendBlockFrame tr.blockKind 0 infoBlock 0))
          refine ⟨by rw [hev]; rfl, ?_⟩
          intro tr1 i1 s1 h
          exact hfields tr1 i1 s1 h
      · rw [if_neg hN]
        by_cases hC : c = asciiCAN
        · rw [if_pos hC]
          cases rest with
          | nil => exact ⟨rfl, by intro tr1 i1 s1 h; simp at h⟩
          | cons d rest2 => exact ⟨rfl, by intro tr1 i1 s1 h; simp at h⟩
        · rw [if_neg hC]
          exact ⟨rfl, by intro tr1 i1 s1 h; simp at h⟩

theorem sendFileInfo_ev (tr : Transfer) (input : List Nat) (st : YSt) :
    (sendFileInfo tr input st).2.2.ev = st.ev ∧
    (∀ tr1 i1 s1, sendFileInfo tr input st = (.ok tr1, i1, s1) →
      tr1.file = tr.file ∧ tr1.blockKind = tr.blockKind ∧ tr1.observer = tr.observer) := by
  cases input with
  | nil =>
    rw [sendFileInfo.eq_def]
    exact ⟨rfl, by intro tr1 i1 s1 h; simp at h⟩
  | cons c rest =>
    rw [sendFileInfo.eq_def]
    dsimp only
    by_cases hP : c = ymodemPOLL
    · rw [if_pos hP]
      exact infoRetryLoop_ev rest tr (infoBlockForFile tr.file) st
    · rw [if_neg hP]
      exact ⟨rfl, by intro tr1 i1 s1 h; simp at h⟩

theorem terminationDance_ev (tr : Transfer) (input : List Nat) (st : YSt) :
    (terminationDance tr input st).2.2.ev = st.ev := by
  rw [terminationDance.eq_def]
  repeat' split
  all_goals simp [emit]

theorem dataLoop_ok_trace (chunks : List (List Nat)) :
    ∀ (tr : Transfer) (blockIdx : Nat) (input : List Nat) (st : YSt)
      (tr1 : Transfer) (i1 : List Nat) (s1 : YSt), tr.observer = true →
      dataLoop tr blockIdx chunks input st = (.ok tr1, i1, s1) →
      tr1.observer = true ∧
      ∃ ps, s1.ev = st.ev ++ ps ∧ ps.length = chunks.length ∧
        ∀ e ∈ ps, ∃ a b, e = Event.progress a b := by
  induction chunks with
  | nil =>
    intro tr blockIdx input st tr1 i1 s1 hobs h
    rw [dataLoop.eq_def] at h
    simp only [Prod.mk.injEq, Except.ok.injEq] at h
    obtain ⟨h1, h2, h3⟩ := h
    subst h1; subst h3
    exact ⟨hobs, [], by simp, by simp, by simp⟩
  | cons chunk rest ih =>
    intro tr blockIdx input st tr1 i1 s1 hobs h
    rw [dataLoop.eq_def] at h
    dsimp only at h
    cases input with
    | nil => simp at h
    | cons c inRest =>
      dsimp only at h
      by_cases hc : c = asciiACK
      · rw [if_pos hc] at h
        obtain ⟨hobs1, ps, hev, hlen, hprog⟩ := ih _ _ _ _ _ _ _ (by simpa using hobs) h
        refine ⟨hobs1,
          Event.progress (tr.fileBytesSent + chunk.length) tr.file.data.length :: ps, ?_, ?_, ?_⟩
        · rw [hev]
          simp [note, emit, hobs]
        · simp [hlen]
        · intro e he
          rcases List.mem_cons.mp he with h1 | h1
          · exact ⟨_, _, h1⟩
          · exact hprog e h1
      · rw [if_neg hc] at h
        by_cases hz : ({ tr with retryCount := tr.retryCount - 1 } : Transfer).retryCount = 0
        · rw [if_pos hz] at h
          simp at h
        · rw [if_neg hz] at h
          obtain ⟨hobs1, ps, hev, hlen, hprog⟩ := ih _ _ _ _ _ _ _ (by simpa using hobs) h
          refine ⟨hobs1,
            Event.progress (tr.fileBytesSent + chunk.length) tr.file.data.length :: ps, ?_, ?_, ?_⟩
          · rw [hev]
            simp [note, emit, hobs]
          · simp [hlen]
          · intro e he
            rcases List.mem_cons.mp he with h1 | h1
            · exact ⟨_, _, h1⟩
            · exact hprog e h1

theorem sendFileData_ok_trace (tr : Transfer) (input : List Nat) (st : YSt)
    (tr1 : Transfer) (i1 : List Nat) (s1 : YSt) (hobs : tr.observer = true)
    (h : sendFileData tr input st = (.ok tr1, i1, s1)) :
    tr1.observer = true ∧
    ∃ ps, s1.ev = st.ev ++ (Event.start tr.file.name tr.file.data.length :: (ps ++ [Event.finish])) ∧
      ps.length = (chunkify (blockSizeOf tr.blockKind) tr.file.data).length ∧
      ∀ e ∈ ps, ∃ a b, e = Event.progress a b := by
  cases input with
  | nil => rw [sendFileData.eq_def] at h; simp at h
  | cons c rest =>
    rw [sendFileData.eq_def] at h
    dsimp only at h
    by_cases hc : c = ymodemPOLL
    · rw [if_pos hc] at h
      rcases hd : dataLoop tr 0 (chunkify (blockSizeOf tr.blockKind) tr.file.data) rest
          (note tr.observer st (.start tr.file.name tr.file.data.length)) with ⟨r, i2, s2⟩
      rw [hd] at h
      cases r with
      | error e => simp at h
      | ok tr2 =>
        dsimp only at h
        simp only [Prod.mk.injEq, Except.ok.injEq] at h
        obtain ⟨h1, h2, h3⟩ := h
        subst h1
        obtain ⟨hobs2, ps, hev, hlen, hprog⟩ :=
          dataLoop_ok_trace (chunkify (blockSizeOf tr.blockKind) tr.file.data)
            tr 0 rest _ tr2 i2 s2 hobs hd
        refine ⟨hobs2, ps, ?_, hlen, hprog⟩
        rw [← h3]
        simp only [note, hobs, hobs2, if_true] at hev ⊢
        rw [hev]
        simp
    · rw [if_neg hc] at h
      simp at h

/-- Whether a transfer result is a success. -/
def isOkT : Except YErr Transfer → Bool
  | .ok _ => true
  | .error _ => false

/-- C8 (amended): on a transfer session with an attached observer that
SUCCEEDS, start is invoked exactly once (first), finish exactly once
(last), and in between there is exactly one progress invocation per data
block sent — acknowledged or not, since the source also reports progress
for a block whose non-ACK response merely consumed a retry.  On a
failing transfer the observer methods invoked before the failure are
not suppressed (see the counterexample). -/
theorem C8_amended_trace (tr : Transfer) (input : List Nat)
    (hobs : tr.observer = true)
    (hok : isOkT (SendTo tr input { out := [], ev := [] }).1 = true) :
    ∃ ps, (SendTo tr input { out := [], ev := [] }).2.2.ev =
        Event.start tr.file.name tr.file.data.length :: (ps ++ [Event.finish]) ∧
      ps.length = (chunkify (blockSizeOf tr.blockKind) tr.file.data).length ∧
      ∀ e ∈ ps, ∃ a b, e = Event.progress a b := by
  rcases hb : sendToBody tr input { out := [], ev := [] } with ⟨r, i, s⟩
  rw [SendTo, hb] at hok ⊢
  cases r with
  | error e => dsimp only at hok; rw [isOkT] at hok; simp at hok
  | ok tr2 =>
    dsimp only at hok ⊢
    rw [sendToBody.eq_def] at hb
    rcases h1 : sendFileInfo tr input { out := [], ev := [] } with ⟨r1, i1, s1⟩
    rw [h1] at hb
    cases r1 with
    | error e => simp at hb
    | ok trA =>
      dsimp only at hb
      rcases h2 : sendFileData trA i1 s1 with ⟨r2, i2, s2⟩
      rw [h2] at hb
      cases r2 with
      | error e => simp at hb
      | ok trB =>
        dsimp only at hb
        obtain ⟨hev1, hfields⟩ := sendFileInfo_ev tr input { out := [], ev := [] }
        rw [h1] at hev1
        obtain ⟨hfile, hbk, hobsA⟩ := hfields trA i1 s1 h1
        obtain ⟨hobsB, ps, hev2, hlen, hprog⟩ :=
          sendFileData_ok_trace trA i1 s1 trB i2 s2 (by rw [hobsA, hobs]) h2
        have hdance : s.ev = s2.ev := by
          have := terminationDance_ev trB i2 s2
          rw [hb] at this
          exact this
        refine ⟨ps, ?_, ?_, hprog⟩
        · rw [hdance, hev2, hev1, hfile]
          simp
        · rw [hlen, hbk, hfile]

/-- Witness for C8 at a concrete input: a 1-byte file transferred
successfully against the full happy-path peer script. -/
theorem C8_witness :
    (tr8.observer = true ∧
      isOkT (SendTo tr8 [ymodemPOLL, asciiACK, ymodemPOLL, asciiACK, asciiACK, asciiACK,
        ymodemPOLL, asciiACK] { out := [], ev := [] }).1 = true) ∧
    ∃ ps, (SendTo tr8 [ymodemPOLL, asciiACK, ymodemPOLL, asciiACK, asciiACK, asciiACK,
        ymodemPOLL, asciiACK] { out := [], ev := [] }).2.2.ev =
        Event.start tr8.file.name tr8.file.data.length :: (ps ++ [Event.finish]) ∧
      ps.length = (chunkify (blockSizeOf tr8.blockKind) tr8.file.data).length ∧
      ∀ e ∈ ps, ∃ a b, e = Event.progress a b :=
  ⟨⟨rfl, by decide⟩,
    C8_amended_trace tr8 [ymodemPOLL, asciiACK, ymodemPOLL, asciiACK, asciiACK, asciiACK,
      ymodemPOLL, asciiACK] rfl (by decide)⟩
